import Mathlib

/-!
Shallow embedding of the zkp-server core (src/server.ts).

The server exposes a credential-authentication protocol over an opaque
Poseidon-family hash and an opaque Groth16 prover.  Field elements are
non-negative arbitrary-precision integers (JS BigInt), carried here as `Nat`;
their canonical decimal-string form at the HTTP boundary is `toString`.
The opaque hash primitive is a parameter `h : List Nat → Nat`; the opaque
prover is a parameter returning `Except` (its `catch`-able failure).
-/

/-! ### FieldEncoder: ZKProofGenerator.stringToFieldElement -/

/-- The UTF-8 byte sequence of a string, as natural numbers
(`new TextEncoder().encode(str)` in the source). -/
def utf8Bytes (s : String) : List Nat := s.toUTF8.data.toList.map UInt8.toNat

/-- The accumulation loop of `stringToFieldElement`:
`for (let i = 0; i < Math.min(bytes.length, 31); i++) result += bytes[i] * 256^i`. -/
def fieldNatOfBytes (bytes : List Nat) : Nat :=
  (List.range (min bytes.length 31)).foldl (fun acc i => acc + bytes.getD i 0 * 256 ^ i) 0

/-- The integer value computed by `ZKProofGenerator.stringToFieldElement`. -/
def stringToFieldNat (s : String) : Nat := fieldNatOfBytes (utf8Bytes s)

/-- `ZKProofGenerator.stringToFieldElement`: the decimal string of the
little-endian base-256 value of the first (at most) 31 UTF-8 bytes. -/
def stringToFieldElement (s : String) : String := toString (stringToFieldNat s)

/-- Little-endian base-256 value of a byte list (reference form of the
encoder's loop, used to reason about truncation, bounds and injectivity). -/
def byteListValue : List Nat → Nat
  | [] => 0
  | b :: rest => b + 256 * byteListValue rest

/-- The scalar-field modulus of the BN254 curve used by snarkjs/circomlibjs
(the proof system's field, per the spec's glossary). -/
def snarkFieldModulus : Nat :=
  21888242871839275222246405745257275088548364400416034343698204186575808495617

/-! ### CredentialCommitmentProtocol: the /api/auth/generate-proof derivation -/

/-- `pattern.join('')` from the handler: pattern elements rendered as decimal
digits and concatenated in sequence order. -/
def joinedPattern (pattern : List Nat) : String :=
  String.join (pattern.map toString)

/-- The `passwordField` computed by the auth handler:
`ZKProofGenerator.stringToFieldElement(pattern.join(''))`. -/
def patternField (pattern : List Nat) : Nat :=
  stringToFieldNat (joinedPattern pattern)

/-- `const nonceValue = nonce || Math.floor(Math.random() * 1000000)`:
a caller-supplied truthy (non-zero) nonce is used, otherwise the freshly
generated value `fresh` (the random draw, passed in explicitly). -/
def resolveNonce (nonce : Option Nat) (fresh : Nat) : Nat :=
  match nonce with
  | none => fresh
  | some n => if n = 0 then fresh else n

/-- The values derived by the /api/auth/generate-proof handler, in order. -/
structure AuthDerivation where
  usernameField : Nat
  passwordField : Nat
  usernameHash : Nat
  credentialHash : Nat
  nonceValue : Nat
  resultHash : Nat

/-- The derivation sequence of the /api/auth/generate-proof handler
(lines 204-219 of server.ts), parameterized by the opaque Poseidon
primitive `h` and the fresh random draw `fresh`. -/
def authDerive (h : List Nat → Nat) (username : String) (pattern : List Nat)
    (nonce : Option Nat) (fresh : Nat) : AuthDerivation :=
  let usernameField := stringToFieldNat username
  let passwordField := patternField pattern
  let usernameHash := h [usernameField]
  let credentialHash := h [usernameField, passwordField]
  let nonceValue := resolveNonce nonce fresh
  let resultHash := h [credentialHash, nonceValue]
  { usernameField := usernameField
    passwordField := passwordField
    usernameHash := usernameHash
    credentialHash := credentialHash
    nonceValue := nonceValue
    resultHash := resultHash }

/-- The six named witness fields handed to the prover (`CircuitInputs` in
server.ts), in canonical decimal-string form. -/
structure CircuitInputs where
  username : String
  password : String
  username_hash : String
  credential_hash : String
  nonce : String
  result_hash : String

/-- The witness object the auth handler passes to
`ZKProofGenerator.generateProof` (lines 222-229 of server.ts). -/
def authWitness (d : AuthDerivation) : CircuitInputs :=
  { username := toString d.usernameField
    password := toString d.passwordField
    username_hash := toString d.usernameHash
    credential_hash := toString d.credentialHash
    nonce := toString d.nonceValue
    result_hash := toString d.resultHash }

/-! ### ProofOrchestrator: ZKProofGenerator.generateProof -/

/-- Raw output of `groth16.fullProve`: curve points as indexed families of
coordinate strings (`proof.pi_a[i]`, `proof.pi_b[i][j]`, `proof.pi_c[i]`). -/
structure RawGroth16Proof where
  pi_a : Nat → String
  pi_b : Nat → Nat → String
  pi_c : Nat → String

/-- Raw prover result: the proof plus the public signals. -/
structure RawProverOutput where
  proof : RawGroth16Proof
  publicSignals : List String

/-- The normalized proof representation returned by the server
(`ZKProofData` in server.ts). -/
structure ZKProofData where
  a : List String
  b : List (List String)
  c : List String

/-- Normalized proof plus public signals (`ProofResult` in server.ts). -/
structure ProofResult where
  proof : ZKProofData
  publicSignals : List String

/-- The normalization performed by `ZKProofGenerator.generateProof`
(lines 89-96 of server.ts): `a` and `c` keep the first two raw coordinates
in order; each row of `b` has its two coordinates reversed. -/
def normalizeProof (raw : RawGroth16Proof) : ZKProofData :=
  { a := [raw.pi_a 0, raw.pi_a 1]
    b := [[raw.pi_b 0 1, raw.pi_b 0 0], [raw.pi_b 1 1, raw.pi_b 1 0]]
    c := [raw.pi_c 0, raw.pi_c 1] }

/-- `generateProof`'s successful result: normalized proof, pass-through
public signals. -/
def generateProofResult (raw : RawProverOutput) : ProofResult :=
  { proof := normalizeProof raw.proof
    publicSignals := raw.publicSignals }

/-! ### The /api/generate-proof handler -/

/-- Request body of /api/generate-proof.  Each field is the string value of
the JSON body; a field that is absent behaves in the handler exactly like the
empty string (both are falsy under the JS `!` test and neither reaches the
prover), so absence is modeled as `""`. -/
structure WitnessBody where
  username : String
  password : String
  username_hash : String
  credential_hash : String
  nonce : String
  result_hash : String

/-- The 400 message of the /api/generate-proof handler. -/
def missingFieldsError : String :=
  "Missing required fields: username, password, username_hash, credential_hash, nonce, result_hash"

/-- Responses a proof endpoint can produce: 400 with an error field,
200 with a proof, or 500 with the prover's error message. -/
inductive ProofResponse where
  | badRequest (error : String)
  | ok (result : ProofResult)
  | serverError (error : String)

/-- The /api/generate-proof handler (lines 148-188 of server.ts): reject with
400 if any of the six fields is falsy, otherwise invoke the opaque prover on
the six fields and convert its failure to a 500. -/
def generateProofHandler (prover : CircuitInputs → Except String RawProverOutput)
    (b : WitnessBody) : ProofResponse :=
  if b.username = "" ∨ b.password = "" ∨ b.username_hash = "" ∨
      b.credential_hash = "" ∨ b.nonce = "" ∨ b.result_hash = "" then
    .badRequest missingFieldsError
  else
    match prover { username := b.username, password := b.password,
                   username_hash := b.username_hash, credential_hash := b.credential_hash,
                   nonce := b.nonce, result_hash := b.result_hash } with
    | .ok raw => .ok (generateProofResult raw)
    | .error e => .serverError ("Failed to generate ZK proof: " ++ e)

/-- Spec-side predicate (refinement comparison): a string parses as a
non-negative integer, i.e. it is non-empty and all decimal digits. -/
def isNatString (s : String) : Bool :=
  !s.data.isEmpty && s.data.all Char.isDigit

/-- Spec-side predicate (refinement comparison): the witness-completeness
check the spec ascribes to the handler — all six fields present and each
parseable as a non-negative integer string. -/
def witnessCompleteSpec (b : WitnessBody) : Bool :=
  isNatString b.username && isNatString b.password && isNatString b.username_hash &&
  isNatString b.credential_hash && isNatString b.nonce && isNatString b.result_hash

/-! ### The /api/hash handler -/

/-- JSON values, as far as the hash endpoint's validation can observe them. -/
inductive Json where
  | null
  | bool (b : Bool)
  | num (n : Int)
  | str (s : String)
  | arr (elems : List Json)
  | obj

/-- JS truthiness of an (optional, i.e. possibly `undefined`) JSON value. -/
def jsTruthy : Option Json → Bool
  | none => false
  | some .null => false
  | some (.bool b) => b
  | some (.num n) => n != 0
  | some (.str s) => s != ""
  | some (.arr _) => true
  | some .obj => true

/-- `Array.isArray` on an optional JSON value. -/
def jsIsArray : Option Json → Bool
  | some (.arr _) => true
  | _ => false

/-- `BigInt(i)` for one array element: numbers and digit strings convert;
other shapes are modeled as a conversion failure (a throw caught by the
handler's catch); no claim depends on this branch's fine structure. -/
def jsBigIntOfJson : Json → Option Nat
  | .num n => if n < 0 then none else some n.toNat
  | .str s => s.toNat?
  | _ => none

/-- The 400 message of the /api/hash handler. -/
def invalidInputsError : String := "Invalid inputs. Expected array of values."

/-- The 500 message used when a value cannot be converted to BigInt. -/
def bigIntCastError : String := "Cannot convert value to a BigInt"

/-- Responses of the /api/hash endpoint. -/
inductive HashResponse where
  | badRequest (error : String)
  | ok (hash : String)
  | serverError (error : String)

/-- The /api/hash handler (lines 112-128 of server.ts): 400 unless `inputs`
is a truthy array, otherwise convert each element with `BigInt` and apply the
opaque Poseidon primitive `h`. -/
def hashHandler (h : List Nat → Nat) (inputs : Option Json) : HashResponse :=
  if !jsTruthy inputs || !jsIsArray inputs then
    .badRequest invalidInputsError
  else
    match inputs with
    | some (.arr elems) =>
      match elems.mapM jsBigIntOfJson with
      | some ns => .ok (toString (h ns))
      | none => .serverError bigIntCastError
    | _ => .badRequest invalidInputsError

/-! ### The /api/string-to-field handler -/

/-- Responses of the /api/string-to-field endpoint.  The handler's catch
branch (500) is unreachable since the encoder is total, so a response either
carries an error field or a fieldElement, never both. -/
inductive FieldResponse where
  | badRequest (error : String)
  | ok (fieldElement : String)

/-- The /api/string-to-field handler (lines 131-145 of server.ts): the body's
`value` field at its declared type (string; `none` = absent).  A falsy value
— absent or the empty string — is rejected with 400 before the encoder `enc`
is consulted. -/
def stringToFieldHandler (enc : String → String) (value : Option String) : FieldResponse :=
  match value with
  | none => .badRequest "Value is required"
  | some s => if s != "" then .ok (enc s) else .badRequest "Value is required"

/-! ### Concrete instances used by witnesses and counterexamples -/

/-- A concrete stand-in for the opaque Poseidon primitive. -/
def h0 : List Nat → Nat := fun _ => 0

/-- A second concrete stand-in, to exhibit independence from the primitive. -/
def h1 : List Nat → Nat := fun _ => 1

/-- A concrete raw prover output. -/
def rawOut0 : RawProverOutput :=
  { proof := { pi_a := fun _ => "0", pi_b := fun _ _ => "0", pi_c := fun _ => "0" }
    publicSignals := [] }

/-- A concrete prover that always succeeds with `rawOut0`. -/
def okProver : CircuitInputs → Except String RawProverOutput := fun _ => .ok rawOut0

/-- A witness body whose six fields are all present (non-empty) but whose
`result_hash` is not a numeric string. -/
def cexBody : WitnessBody :=
  { username := "1", password := "1", username_hash := "1",
    credential_hash := "1", nonce := "1", result_hash := "abc" }

/-! ### Helper lemmas about the encoder -/

/-- Folding `acc + f i` over `List.range n` is the range sum. -/
theorem foldl_range_add (f : Nat → Nat) :
    ∀ (n a : Nat), (List.range n).foldl (fun acc i => acc + f i) a
      = a + ∑ i ∈ Finset.range n, f i := by
  intro n
  induction n with
  | zero => intro a; simp
  | succ n ih =>
    intro a
    rw [List.range_succ, List.foldl_append, ih, Finset.sum_range_succ]
    simp [Nat.add_assoc]

/-- `byteListValue` as a positional range sum. -/
theorem byteListValue_eq_sum (l : List Nat) :
    byteListValue l = ∑ i ∈ Finset.range l.length, l.getD i 0 * 256 ^ i := by
  induction l with
  | nil => simp [byteListValue]
  | cons b rest ih =>
    rw [byteListValue, ih, List.length_cons, Finset.sum_range_succ']
    simp [List.getD_cons_succ, List.getD_cons_zero, pow_succ, Finset.mul_sum]
    rw [Nat.add_comm]
    congr 1
    apply Finset.sum_congr rfl
    intro i _
    ring

/-- The encoder loop computes the base-256 value of the first 31 bytes. -/
theorem fieldNatOfBytes_eq_take (bytes : List Nat) :
    fieldNatOfBytes bytes = byteListValue (bytes.take 31) := by
  rw [fieldNatOfBytes,
    foldl_range_add (fun i => bytes.getD i 0 * 256 ^ i) (min bytes.length 31) 0,
    Nat.zero_add, byteListValue_eq_sum, List.length_take, Nat.min_comm 31 bytes.length]
  apply Finset.sum_congr rfl
  intro i hi
  have hi31 : i < 31 := lt_of_lt_of_le (Finset.mem_range.1 hi) (Nat.min_le_right _ _)
  congr 1
  rw [List.getD_eq_getElem?_getD, List.getD_eq_getElem?_getD, List.getElem?_take, if_pos hi31]

/-- Every UTF-8 byte is below 256. -/
theorem utf8Bytes_lt (s : String) : ∀ x ∈ utf8Bytes s, x < 256 := by
  intro x hx
  simp only [utf8Bytes, List.mem_map] at hx
  obtain ⟨b, _, rfl⟩ := hx
  exact b.toNat_lt

/-- Base-256 value of a byte list is below `256 ^ length`. -/
theorem byteListValue_lt (l : List Nat) (h : ∀ x ∈ l, x < 256) :
    byteListValue l < 256 ^ l.length := by
  induction l with
  | nil => simp [byteListValue]
  | cons b rest ih =>
    have hb : b < 256 := h b (List.mem_cons_self b rest)
    have hr := ih (fun x hx => h x (List.mem_cons_of_mem b hx))
    rw [byteListValue, List.length_cons, pow_succ]
    omega

/-- Base-256 values determine equal-length byte lists. -/
theorem byteListValue_inj : ∀ (l1 l2 : List Nat), l1.length = l2.length →
    (∀ x ∈ l1, x < 256) → (∀ x ∈ l2, x < 256) →
    byteListValue l1 = byteListValue l2 → l1 = l2 := by
  intro l1
  induction l1 with
  | nil =>
    intro l2 hlen _ _ _
    cases l2 with
    | nil => rfl
    | cons c r => simp at hlen
  | cons b rest ih =>
    intro l2 hlen h1 h2 heq
    cases l2 with
    | nil => simp at hlen
    | cons c rest2 =>
      have hb : b < 256 := h1 b (List.mem_cons_self b rest)
      have hc : c < 256 := h2 c (List.mem_cons_self c rest2)
      rw [byteListValue, byteListValue] at heq
      have hbc : b = c ∧ byteListValue rest = byteListValue rest2 := by
        constructor <;> omega
      have hrest := ih rest2 (by simpa using hlen)
        (fun x hx => h1 x (List.mem_cons_of_mem b hx))
        (fun x hx => h2 x (List.mem_cons_of_mem c hx)) hbc.2
      rw [hbc.1, hrest]

/-- UTF-8 encoding distributes over string append. -/
theorem utf8Bytes_append (s t : String) :
    utf8Bytes (s ++ t) = utf8Bytes s ++ utf8Bytes t := by
  simp [utf8Bytes, String.toUTF8, String.data]

/-- C2: for every input string, `stringToFieldElement` returns the decimal
string of the little-endian positional sum of the first `min(len, 31)` UTF-8
bytes; as a total Lean function it is deterministic and never fails. -/
theorem stringToFieldElement_spec (s : String) :
    stringToFieldElement s =
      toString (∑ i ∈ Finset.range (min (utf8Bytes s).length 31),
        (utf8Bytes s).getD i 0 * 256 ^ i) := by
  rw [stringToFieldElement, stringToFieldNat, fieldNatOfBytes,
    foldl_range_add (fun i => (utf8Bytes s).getD i 0 * 256 ^ i) _ 0, Nat.zero_add]

/-- C6: the encoded value depends only on the first 31 UTF-8 bytes — two
strings agreeing on those encode identically, and appending a suffix to a
string already 31 bytes long does not change the encoded value. -/
theorem stringToFieldElement_truncation (s t : String) :
    ((utf8Bytes s).take 31 = (utf8Bytes t).take 31 →
      stringToFieldElement s = stringToFieldElement t)
    ∧ ((utf8Bytes s).length = 31 →
      stringToFieldElement (s ++ t) = stringToFieldElement s) := by
  constructor
  · intro hpre
    rw [stringToFieldElement, stringToFieldElement, stringToFieldNat, stringToFieldNat,
      fieldNatOfBytes_eq_take, fieldNatOfBytes_eq_take, hpre]
  · intro hlen
    have hpre : (utf8Bytes (s ++ t)).take 31 = (utf8Bytes s).take 31 := by
      rw [utf8Bytes_append, List.take_append_of_le_length (by omega)]
    rw [stringToFieldElement, stringToFieldElement, stringToFieldNat, stringToFieldNat,
      fieldNatOfBytes_eq_take, fieldNatOfBytes_eq_take, hpre]

/-- Witness for the truncation theorem at concrete strings: 31 `a`s followed
by different suffixes encode identically. -/
theorem stringToFieldElement_truncation_witness :
    stringToFieldElement "aaaaaaaaaaaaaaaaaaaaaaaaaaaaaaaXY"
      = stringToFieldElement "aaaaaaaaaaaaaaaaaaaaaaaaaaaaaaa"
    ∧ stringToFieldElement ("aaaaaaaaaaaaaaaaaaaaaaaaaaaaaaa" ++ "ZZZ")
      = stringToFieldElement "aaaaaaaaaaaaaaaaaaaaaaaaaaaaaaa" :=
  ⟨(stringToFieldElement_truncation "aaaaaaaaaaaaaaaaaaaaaaaaaaaaaaaXY"
      "aaaaaaaaaaaaaaaaaaaaaaaaaaaaaaa").1 (by decide),
   (stringToFieldElement_truncation "aaaaaaaaaaaaaaaaaaaaaaaaaaaaaaa" "ZZZ").2
      (by decide)⟩

/-- C8: the encoder's value is below `2 ^ 248 = 256 ^ 31` for every input
string (at most 31 bytes, each below 256, contribute), hence below the proof
system's field modulus: the encoding never overflows the field. -/
theorem stringToField_below_modulus (s : String) :
    stringToFieldNat s < 2 ^ 248 ∧ stringToFieldNat s < snarkFieldModulus := by
  have h248 : stringToFieldNat s < 2 ^ 248 := by
    rw [stringToFieldNat, fieldNatOfBytes_eq_take]
    have h1 : byteListValue ((utf8Bytes s).take 31) < 256 ^ ((utf8Bytes s).take 31).length :=
      byteListValue_lt _ (fun x hx => utf8Bytes_lt s x (List.mem_of_mem_take hx))
    have h2 : (256 : Nat) ^ ((utf8Bytes s).take 31).length ≤ 256 ^ 31 := by
      apply Nat.pow_le_pow_right (by norm_num)
      rw [List.length_take]
      exact Nat.min_le_left _ _
    calc byteListValue ((utf8Bytes s).take 31)
        < 256 ^ ((utf8Bytes s).take 31).length := h1
      _ ≤ 256 ^ 31 := h2
      _ = 2 ^ 248 := by norm_num
  refine ⟨h248, lt_trans h248 ?_⟩
  rw [snarkFieldModulus]
  norm_num

/-! ### Helper lemmas about pattern joining -/

/-- UTF-8 bytes of a left fold of appends. -/
theorem utf8Bytes_foldl_append (l : List String) :
    ∀ a : String, utf8Bytes (l.foldl (fun r s => r ++ s) a)
      = utf8Bytes a ++ l.flatMap utf8Bytes := by
  induction l with
  | nil => intro a; simp
  | cons s l ih =>
    intro a
    rw [List.foldl_cons, ih, List.flatMap_cons, utf8Bytes_append, List.append_assoc]

/-- UTF-8 bytes of `String.join`. -/
theorem utf8Bytes_join (l : List String) :
    utf8Bytes (String.join l) = l.flatMap utf8Bytes := by
  rw [String.join, utf8Bytes_foldl_append]
  rfl

/-- A single decimal digit renders to its one ASCII byte. -/
theorem utf8Bytes_digit (d : Nat) (hd : d < 10) :
    utf8Bytes (toString d) = [48 + d] := by
  interval_cases d <;> rfl

/-- Joining single-digit pattern elements yields exactly their ASCII bytes. -/
theorem utf8Bytes_joinedPattern (p : List Nat) (hp : ∀ d ∈ p, d < 10) :
    utf8Bytes (joinedPattern p) = p.map (fun d => 48 + d) := by
  rw [joinedPattern, utf8Bytes_join]
  induction p with
  | nil => rfl
  | cons d p ih =>
    rw [List.map_cons, List.flatMap_cons,
      utf8Bytes_digit d (hp d (List.mem_cons_self d p)),
      ih (fun x hx => hp x (List.mem_cons_of_mem d hx)), List.map_cons]
    rfl

/-- For a single-digit pattern of length at most 31, `patternField` is the
base-256 value of the pattern's ASCII bytes. -/
theorem patternField_digits (p : List Nat) (hp : ∀ d ∈ p, d < 10)
    (hlen : p.length ≤ 31) :
    patternField p = byteListValue (p.map (fun d => 48 + d)) := by
  rw [patternField, stringToFieldNat, fieldNatOfBytes_eq_take,
    utf8Bytes_joinedPattern p hp, List.take_of_length_le (by simpa using hlen)]

/-! ### Claim theorems about the auth derivation -/

/-- C1: in the full authentication flow, the three commitments handed to the
prover in the witness are the opaque hash of `[usernameField]`, of
`[usernameField, passwordField]`, and of `[credentialHash, nonce]`, in those
orders, for every username, pattern and resolved nonce. -/
theorem auth_commitment_chain (h : List Nat → Nat) (username : String)
    (pattern : List Nat) (nonce : Option Nat) (fresh : Nat) :
    (authWitness (authDerive h username pattern nonce fresh)).username_hash
      = toString (h [(authDerive h username pattern nonce fresh).usernameField])
    ∧ (authWitness (authDerive h username pattern nonce fresh)).credential_hash
      = toString (h [(authDerive h username pattern nonce fresh).usernameField,
                     (authDerive h username pattern nonce fresh).passwordField])
    ∧ (authWitness (authDerive h username pattern nonce fresh)).result_hash
      = toString (h [(authDerive h username pattern nonce fresh).credentialHash,
                     (authDerive h username pattern nonce fresh).nonceValue]) :=
  ⟨rfl, rfl, rfl⟩

/-- C7: the nonce used for the result hash and returned to the caller is the
caller-supplied one when present and non-zero, and the freshly generated
value when absent or zero; resolution is by the total `resolveNonce`, never
by raising. -/
theorem auth_nonce_resolution (h : List Nat → Nat) (u : String) (p : List Nat)
    (fresh : Nat) (nonce : Option Nat) :
    (∀ n, nonce = some n → n ≠ 0 →
      (authDerive h u p nonce fresh).nonceValue = n)
    ∧ ((nonce = none ∨ nonce = some 0) →
      (authDerive h u p nonce fresh).nonceValue = fresh)
    ∧ (authDerive h u p nonce fresh).resultHash
      = h [(authDerive h u p nonce fresh).credentialHash,
           (authDerive h u p nonce fresh).nonceValue] := by
  refine ⟨?_, ?_, rfl⟩
  · rintro n rfl hn
    show resolveNonce (some n) fresh = n
    simp [resolveNonce, hn]
  · rintro (rfl | rfl) <;> rfl

/-- Witness for the nonce-resolution theorem at concrete inputs. -/
theorem auth_nonce_resolution_witness :
    (authDerive h0 "u" [1] (some 5) 7).nonceValue = 5
    ∧ (authDerive h0 "u" [1] none 7).nonceValue = 7
    ∧ (authDerive h0 "u" [1] (some 0) 7).nonceValue = 7 :=
  ⟨(auth_nonce_resolution h0 "u" [1] 7 (some 5)).1 5 rfl (by decide),
   (auth_nonce_resolution h0 "u" [1] 7 none).2.1 (Or.inl rfl),
   (auth_nonce_resolution h0 "u" [1] 7 (some 0)).2.1 (Or.inr rfl)⟩

/-- C5 counterexample: the patterns `[1, 11]` and `[11, 1]` contain the same
elements in different order, yet the derivation gives them the same
`passwordField` (both join to the digit string "111"). -/
theorem derive_pattern_order_cex :
    ([1, 11] : List Nat) ≠ [11, 1]
    ∧ List.Perm ([1, 11] : List Nat) [11, 1]
    ∧ (authDerive h0 "u" [1, 11] none 0).passwordField
      = (authDerive h0 "u" [11, 1] none 0).passwordField :=
  ⟨by decide, by decide, rfl⟩

/-- C5 (amended): for single-digit patterns (elements below 10) of length at
most 31, two patterns with the same elements in different order give
different `passwordField` values in the derivation. -/
theorem derive_pattern_order (h : List Nat → Nat) (u : String) (p q : List Nat)
    (nonce : Option Nat) (fresh : Nat)
    (hp : ∀ d ∈ p, d < 10) (hq : ∀ d ∈ q, d < 10)
    (hlenp : p.length ≤ 31) (hperm : p.Perm q) (hne : p ≠ q) :
    (authDerive h u p nonce fresh).passwordField
      ≠ (authDerive h u q nonce fresh).passwordField := by
  have hlenq : q.length ≤ 31 := hperm.length_eq ▸ hlenp
  intro heq
  apply hne
  have e1 : (authDerive h u p nonce fresh).passwordField = patternField p := rfl
  have e2 : (authDerive h u q nonce fresh).passwordField = patternField q := rfl
  rw [e1, e2, patternField_digits p hp hlenp, patternField_digits q hq hlenq] at heq
  have hmap := byteListValue_inj _ _ (by simp [hperm.length_eq])
    (by intro x hx; simp only [List.mem_map] at hx; obtain ⟨d, hd, rfl⟩ := hx;
        have := hp d hd; omega)
    (by intro x hx; simp only [List.mem_map] at hx; obtain ⟨d, hd, rfl⟩ := hx;
        have := hq d hd; omega)
    heq
  exact List.map_injective_iff.2 (fun a b hab => by omega) hmap

/-- Witness for the order-sensitivity theorem: the spec's own instance,
`derive("u", [0,1,2])` versus `derive("u", [2,1,0])`. -/
theorem derive_pattern_order_witness :
    (authDerive h0 "u" [0, 1, 2] none 0).passwordField
      ≠ (authDerive h0 "u" [2, 1, 0] none 0).passwordField :=
  derive_pattern_order h0 "u" [0, 1, 2] [2, 1, 0] none 0
    (by decide) (by decide) (by decide) (by decide) (by decide)

/-! ### Claim theorems about proof normalization and the handlers -/

/-- C3: for every raw prover output, the normalized artifact has rows 0 and 1
of `b` with their two coordinates in reversed order relative to the raw rows,
while `a` and `c` keep the first two raw coordinates in original order. -/
theorem generateProof_coordinate_swap (raw : RawProverOutput) :
    (generateProofResult raw).proof.b
      = [[raw.proof.pi_b 0 1, raw.proof.pi_b 0 0],
         [raw.proof.pi_b 1 1, raw.proof.pi_b 1 0]]
    ∧ (generateProofResult raw).proof.a = [raw.proof.pi_a 0, raw.proof.pi_a 1]
    ∧ (generateProofResult raw).proof.c = [raw.proof.pi_c 0, raw.proof.pi_c 1]
    ∧ (generateProofResult raw).publicSignals = raw.publicSignals :=
  ⟨rfl, rfl, rfl, rfl⟩

/-- C4 counterexample: a body whose six fields are all present but whose
`result_hash` is the non-numeric string "abc" fails the spec's
witness-completeness check, yet the handler does not return 400 — it invokes
the prover and returns its result. -/
theorem generateProof_validation_cex :
    witnessCompleteSpec cexBody = false
    ∧ generateProofHandler okProver cexBody = .ok (generateProofResult rawOut0) :=
  ⟨by decide, rfl⟩

/-- C4 (amended): the handler returns the 400 validation error exactly when
one of the six fields is missing or empty (JS-falsy); it performs no numeric
parseability check, and on any fully-present body the response is determined
by the prover call. -/
theorem generateProof_validation_presence_only
    (prover : CircuitInputs → Except String RawProverOutput) (b : WitnessBody) :
    generateProofHandler prover b = .badRequest missingFieldsError
      ↔ (b.username = "" ∨ b.password = "" ∨ b.username_hash = "" ∨
         b.credential_hash = "" ∨ b.nonce = "" ∨ b.result_hash = "") := by
  rw [generateProofHandler]
  split
  · next hcond => simp [hcond]
  · next hcond =>
    simp only [hcond, iff_false]
    cases prover { username := b.username, password := b.password,
                   username_hash := b.username_hash, credential_hash := b.credential_hash,
                   nonce := b.nonce, result_hash := b.result_hash } <;> simp

/-- C9: when the `inputs` field is missing or not an array, the hash handler
returns 400 with the error message, and its response does not depend on the
hash primitive — the primitive is never invoked. -/
theorem hashHandler_rejects_nonarray (h h' : List Nat → Nat)
    (inputs : Option Json) (hbad : inputs = none ∨ jsIsArray inputs = false) :
    hashHandler h inputs = .badRequest invalidInputsError
    ∧ hashHandler h inputs = hashHandler h' inputs := by
  have hg : (!jsTruthy inputs || !jsIsArray inputs) = true := by
    rcases hbad with rfl | hb
    · rfl
    · rw [hb]
      simp
  have key : ∀ g : List Nat → Nat, hashHandler g inputs = .badRequest invalidInputsError := by
    intro g
    delta hashHandler
    rw [hg]
    rfl
  exact ⟨key h, (key h).trans (key h').symm⟩

/-- Witness for the hash-handler rejection theorem at the spec's own
scenario, `inputs = "not-an-array"`, under two different hash primitives. -/
theorem hashHandler_rejects_nonarray_witness :
    hashHandler h0 (some (Json.str "not-an-array")) = .badRequest invalidInputsError
    ∧ hashHandler h0 (some (Json.str "not-an-array"))
      = hashHandler h1 (some (Json.str "not-an-array")) :=
  hashHandler_rejects_nonarray h0 h1 (some (Json.str "not-an-array")) (Or.inr rfl)

/-- C10: the string-to-field endpoint rejects the empty string with the 400
error (the empty string is falsy, hence treated as missing), the response
carries no fieldElement, and the encoder is never consulted — even though the
encoder itself maps the empty string to "0". -/
theorem stringToFieldHandler_rejects_empty (enc : String → String) :
    stringToFieldHandler enc (some "") = .badRequest "Value is required"
    ∧ stringToFieldElement "" = "0"
    ∧ stringToFieldHandler enc (some "")
      = stringToFieldHandler stringToFieldElement (some "") :=
  ⟨rfl, rfl, rfl⟩
